import Mathlib

/-!
Verification development for the content-conversion pipeline of the
dcdunkan/telegraph repository.

The repository converts HTML/Markdown into Telegraph's node format.  The
development below is a shallow embedding of the relevant source functions:

* the four embed-URL regular expressions (`IFRAME_SRC_REGEX` in `content.ts`,
  `REGEX` in `src/parse.ts` — the patterns are textually identical in both
  files), embedded as explicit ASTs executed by a backtracking matcher with
  ECMAScript semantics (leftmost match, greedy quantifiers, ordered
  alternation);
* `encodeURIComponent` / `decodeURIComponent` (ECMAScript builtins used by the
  source), modelled over Unicode scalar values with UTF-8 percent-encoding;
* `transformToIframeURL`, `domToNode` and `parse` of `content.ts` (both the
  older variant and the current variant that ends `transformToIframeURL` with
  `return url`), and `domToNode` of the legacy `src/parse.ts`.

External collaborators (the `marked` renderer, `sanitize-html`, the DOM
parser) are treated as parameters of the entry point, exactly as the
specification designates them as black boxes.
-/

set_option maxRecDepth 10000

/-! ## ECMAScript regular expressions

The four URL patterns use literals, character classes, `.`, ordered
alternation, greedy `*`, `?`, `+`, bounded repetition and capturing groups —
no backreferences or lookarounds.  `mrun` is a continuation-passing
backtracking matcher: alternation tries the left branch first, quantifiers are
greedy, and a `*` iteration that consumes no input stops the loop, matching
the ECMAScript `RepeatMatcher` semantics for these patterns.  The `fuel`
argument only forces structural termination; `runAt` supplies an amount that
is far larger than the deepest possible recursion for these patterns. -/

inductive Regex where
  | eps
  | lit (c : Char)
  | cls (neg : Bool) (ranges : List (Char × Char))
  | dot
  | cat (r1 r2 : Regex)
  | alt (r1 r2 : Regex)
  | star (r : Regex)
  | opt (r : Regex)
  | group (idx : Nat) (r : Regex)
deriving Repr, DecidableEq

/-- Plus: `r+` is `r` followed by `r*`, with the same greedy backtracking order. -/
def Regex.plus (r : Regex) : Regex := .cat r (.star r)

/-- Greedy chain of at most `n` copies of `r` (used to desugar `r{m,n}`). -/
def Regex.upTo : Nat → Regex → Regex
  | 0, _ => .eps
  | n + 1, r => .opt (.cat r (Regex.upTo n r))

/-- Bounded repetition `r{m,m+k}`: `m` mandatory copies followed by at most `k` optional ones. -/
def Regex.repRange (r : Regex) : Nat → Nat → Regex
  | 0, k => Regex.upTo k r
  | m + 1, k => .cat r (Regex.repRange r m k)

/-- Concatenation of a list of regexes, in order. -/
def Regex.cats : List Regex → Regex
  | [] => .eps
  | [r] => r
  | r :: rs => .cat r (Regex.cats rs)

/-- A string as a sequence of character literals. -/
def Regex.str (s : String) : Regex := Regex.cats (s.data.map Regex.lit)

/-- Ordered alternation of a list of alternatives (left first, like `a|b|c`). -/
def Regex.alts : List Regex → Regex
  | [] => .eps
  | [r] => r
  | r :: rs => .alt r (Regex.alts rs)

/-- Membership of a character in a class given by inclusive ranges. -/
def classMatches (neg : Bool) (ranges : List (Char × Char)) (c : Char) : Bool :=
  let inside := ranges.any fun p =>
    decide (p.1.toNat ≤ c.toNat) && decide (c.toNat ≤ p.2.toNat)
  if neg then !inside else inside

/-- ECMAScript `.` matches any character except the four line terminators. -/
def isLineTerminator (c : Char) : Bool :=
  c = '\n' || c = '\r' || c.toNat = 0x2028 || c.toNat = 0x2029

/-- Capture list; the entry recorded most recently comes first. -/
abbrev Caps := List (Nat × String)

def Regex.size : Regex → Nat
  | .eps => 1
  | .lit _ => 1
  | .cls _ _ => 1
  | .dot => 1
  | .cat r1 r2 => r1.size + r2.size + 1
  | .alt r1 r2 => r1.size + r2.size + 1
  | .star r => r.size + 1
  | .opt r => r.size + 1
  | .group _ r => r.size + 1

/-- Backtracking matcher.  `k` is the success continuation receiving the
remaining input and captures; `none` signals failure, triggering backtracking
in the enclosing choice points. -/
def mrun : Nat → Regex → List Char → Caps → (List Char → Caps → Option Caps) →
    Option Caps
  | 0, _, _, _, _ => none
  | fuel + 1, r, s, caps, k =>
    match r with
    | .eps => k s caps
    | .lit c =>
      match s with
      | [] => none
      | c' :: rest => if c' = c then k rest caps else none
    | .cls neg ranges =>
      match s with
      | [] => none
      | c' :: rest => if classMatches neg ranges c' then k rest caps else none
    | .dot =>
      match s with
      | [] => none
      | c' :: rest => if isLineTerminator c' then none else k rest caps
    | .cat r1 r2 =>
      mrun fuel r1 s caps fun s1 caps1 => mrun fuel r2 s1 caps1 k
    | .alt r1 r2 =>
      (mrun fuel r1 s caps k).orElse fun _ => mrun fuel r2 s caps k
    | .opt r =>
      (mrun fuel r s caps k).orElse fun _ => k s caps
    | .star r =>
      (mrun fuel r s caps fun s1 caps1 =>
        if s1.length < s.length then mrun fuel (.star r) s1 caps1 k
        else none).orElse fun _ => k s caps
    | .group idx r =>
      mrun fuel r s caps fun s1 caps1 =>
        k s1 ((idx, String.mk (s.take (s.length - s1.length))) :: caps1)

/-- Run a regex at one fixed start position, returning the captures of the
first match in backtracking order (the match ECMAScript produces). -/
def runAt (r : Regex) (l : List Char) : Option Caps :=
  mrun ((l.length + 2) * (r.size + 2) * (r.size + 2)) r l []
    fun _ caps => some caps

/-- Scan start positions left to right, as an unanchored ECMAScript regex
does, and return the captures of the leftmost match. -/
def scanPositions (r : Regex) : List Char → Option Caps
  | [] => runAt r []
  | l@(_ :: t) =>
    match runAt r l with
    | some caps => some caps
    | none => scanPositions r t

/-- A JavaScript regex literal: the pattern body plus whether it is anchored
at the start with `^`. -/
structure JSRegex where
  anchored : Bool
  re : Regex
deriving Repr, DecidableEq

/-- Model of `RegExp.prototype.exec` (no `g` flag): captures of the leftmost match. -/
def jsExec (re : JSRegex) (s : String) : Option Caps :=
  if re.anchored then runAt re.re s.data else scanPositions re.re s.data

/-- Model of `RegExp.prototype.test` (no `g` flag). -/
def jsTest (re : JSRegex) (s : String) : Bool :=
  (jsExec re s).isSome

/-- Group `i` of an exec result (`match[i]`); the most recent capture wins. -/
def capGet (caps : Caps) (i : Nat) : Option String :=
  (caps.find? fun p => p.1 == i).map (·.2)

/-- JavaScript template interpolation of a possibly-undefined value. -/
def jsCapStr : Option String → String
  | some s => s
  | none => "undefined"

/-! ### The four URL patterns

Transcribed from `IFRAME_SRC_REGEX` in `content.ts` (the same four pattern
texts appear as `REGEX` in `src/parse.ts`).  Unescaped dots inside
`twitter.com`, `www.`, `player.` and `vimeo.com` are kept as `.dot`, exactly
as written in the source. -/

/-- Pattern `/(https?:\/\/)?(www.)?twitter.com\/([a-z,A-Z]*\/)*status\/([0-9])[?]?.*/` -/
def twitterRegex : JSRegex :=
  { anchored := false
    re := Regex.cats
      [ .opt (.group 1 (Regex.cats [Regex.str "http", .opt (.lit 's'), Regex.str "://"]))
      , .opt (.group 2 (Regex.cats [Regex.str "www", .dot]))
      , Regex.str "twitter"
      , .dot
      , Regex.str "com/"
      , .star (.group 3 (.cat (.star (.cls false [('a', 'z'), (',', ','), ('A', 'Z')])) (.lit '/')))
      , Regex.str "status/"
      , .group 4 (.cls false [('0', '9')])
      , .opt (.cls false [('?', '?')])
      , .star .dot ] }

/-- Pattern `/^(https?):\/\/(t\.me|telegram\.me|telegram\.dog)\/([a-zA-Z0-9_]+)\/(\d+)/` -/
def telegramRegex : JSRegex :=
  { anchored := true
    re := Regex.cats
      [ .group 1 (Regex.cats [Regex.str "http", .opt (.lit 's')])
      , Regex.str "://"
      , .group 2 (Regex.alts [Regex.str "t.me", Regex.str "telegram.me", Regex.str "telegram.dog"])
      , .lit '/'
      , .group 3 (Regex.plus (.cls false [('a', 'z'), ('A', 'Z'), ('0', '9'), ('_', '_')]))
      , .lit '/'
      , .group 4 (Regex.plus (.cls false [('0', '9')])) ] }

/-- Pattern `/(https?:\/\/)?(www.)?(player.)?vimeo.com\/([a-z]*\/)*([0-9]{6,11})[?]?.*/` -/
def vimeoRegex : JSRegex :=
  { anchored := false
    re := Regex.cats
      [ .opt (.group 1 (Regex.cats [Regex.str "http", .opt (.lit 's'), Regex.str "://"]))
      , .opt (.group 2 (Regex.cats [Regex.str "www", .dot]))
      , .opt (.group 3 (Regex.cats [Regex.str "player", .dot]))
      , Regex.str "vimeo"
      , .dot
      , Regex.str "com/"
      , .star (.group 4 (.cat (.star (.cls false [('a', 'z')])) (.lit '/')))
      , .group 5 (Regex.repRange (.cls false [('0', '9')]) 6 5)
      , .opt (.cls false [('?', '?')])
      , .star .dot ] }

/-- Pattern `/^.*(?:(?:youtu\.be\/|v\/|vi\/|u\/\w\/|embed\/)|(?:(?:watch)?\?v(?:i)?=|\&v(?:i)?=))([^#\&\?]+).*/` -/
def youtubeRegex : JSRegex :=
  { anchored := true
    re := Regex.cats
      [ .star .dot
      , .alt
          (Regex.alts
            [ Regex.str "youtu.be/"
            , Regex.str "v/"
            , Regex.str "vi/"
            , Regex.cats [Regex.str "u/", .cls false [('a', 'z'), ('A', 'Z'), ('0', '9'), ('_', '_')], .lit '/']
            , Regex.str "embed/" ])
          (Regex.alts
            [ Regex.cats [.opt (Regex.str "watch"), .lit '?', .lit 'v', .opt (.lit 'i'), .lit '=']
            , Regex.cats [.lit '&', .lit 'v', .opt (.lit 'i'), .lit '='] ])
      , .group 1 (Regex.plus (.cls true [('#', '#'), ('&', '&'), ('?', '?')]))
      , .star .dot ] }

/-! ## `encodeURIComponent` and `decodeURIComponent`

`transformToIframeURL` and the YouTube/Vimeo branches of `src/parse.ts` call
the ECMAScript builtin `encodeURIComponent`.  It leaves the unreserved
characters `A–Z a–z 0–9 - _ . ! ~ * ' ( )` untouched and replaces every other
character by the percent-encoding of its UTF-8 bytes, with uppercase hex
digits.  `decodeURIComponent` is its inverse (returning `none` where the
builtin would throw `URIError`). -/

/-- Characters `encodeURIComponent` leaves unescaped. -/
def unreservedURI (c : Char) : Bool :=
  let n := c.toNat
  (65 ≤ n && n ≤ 90) || (97 ≤ n && n ≤ 122) || (48 ≤ n && n ≤ 57) ||
    (c = '-' || c = '_' || c = '.' || c = '!' || c = '~' || c = '*' ||
     n = 39 || c = '(' || c = ')')

/-- UTF-8 bytes of a Unicode scalar value, as natural numbers below 256. -/
def utf8Bytes (c : Char) : List Nat :=
  let n := c.toNat
  if n < 0x80 then [n]
  else if n < 0x800 then [0xC0 + n / 64, 0x80 + n % 64]
  else if n < 0x10000 then [0xE0 + n / 4096, 0x80 + n / 64 % 64, 0x80 + n % 64]
  else [0xF0 + n / 262144, 0x80 + n / 4096 % 64, 0x80 + n / 64 % 64, 0x80 + n % 64]

/-- Uppercase hexadecimal digit for a value below 16. -/
def hexDigitChar (n : Nat) : Char :=
  if n < 10 then Char.ofNat (48 + n) else Char.ofNat (55 + n)

/-- Percent encoding `%XX` of one byte. -/
def percentByte (b : Nat) : List Char :=
  ['%', hexDigitChar (b / 16), hexDigitChar (b % 16)]

/-- Percent encoding `%XX%YY...` of a byte sequence. -/
def percentBytes : List Nat → List Char
  | [] => []
  | b :: t => percentByte b ++ percentBytes t

/-- Encoding of a single character. -/
def encodeURIChar (c : Char) : List Char :=
  if unreservedURI c then [c]
  else percentBytes (utf8Bytes c)

def encodeURIComponentChars : List Char → List Char
  | [] => []
  | c :: t => encodeURIChar c ++ encodeURIComponentChars t

/-- ECMAScript `encodeURIComponent`. -/
def encodeURIComponent (s : String) : String :=
  ⟨encodeURIComponentChars s.data⟩

/-- Value of one hexadecimal digit (either case), if any. -/
def hexDigitVal (c : Char) : Option Nat :=
  let n := c.toNat
  if 48 ≤ n && n ≤ 57 then some (n - 48)
  else if 65 ≤ n && n ≤ 70 then some (n - 55)
  else if 97 ≤ n && n ≤ 102 then some (n - 87)
  else none

/-- Byte denoted by two hex digits. -/
def hexByte (h1 h2 : Char) : Option Nat := do
  let v1 ← hexDigitVal h1
  let v2 ← hexDigitVal h2
  pure (16 * v1 + v2)

/-- Decoding loop of `decodeURIComponent`: a `%XX` group starting a multi-byte
UTF-8 sequence must be followed by the right number of `%XX` continuation
bytes; overlong encodings, surrogate code points and out-of-range values are
rejected (`none`), as the builtin throws `URIError` there.  The fuel is the
number of characters left plus one; every step consumes at least one
character. -/
def decodeAux : Nat → List Char → Option (List Char)
  | 0, _ => none
  | _ + 1, [] => some []
  | f + 1, c :: rest =>
    if c = '%' then
      match rest with
      | h1 :: h2 :: rest1 => do
        let b0 ← hexByte h1 h2
        if b0 < 0x80 then
          (decodeAux f rest1).map (Char.ofNat b0 :: ·)
        else if b0 < 0xC0 then none
        else if b0 < 0xE0 then
          match rest1 with
          | '%' :: g1 :: g2 :: rest2 => do
            let b1 ← hexByte g1 g2
            if 0x80 ≤ b1 && b1 < 0xC0 then
              let n := (b0 - 0xC0) * 64 + (b1 - 0x80)
              if 0x80 ≤ n then (decodeAux f rest2).map (Char.ofNat n :: ·)
              else none
            else none
          | _ => none
        else if b0 < 0xF0 then
          match rest1 with
          | '%' :: g1 :: g2 :: '%' :: g3 :: g4 :: rest2 => do
            let b1 ← hexByte g1 g2
            let b2 ← hexByte g3 g4
            if (0x80 ≤ b1 && b1 < 0xC0) && (0x80 ≤ b2 && b2 < 0xC0) then
              let n := (b0 - 0xE0) * 4096 + (b1 - 0x80) * 64 + (b2 - 0x80)
              if 0x800 ≤ n && (n < 0xD800 || 0xE000 ≤ n) then
                (decodeAux f rest2).map (Char.ofNat n :: ·)
              else none
            else none
          | _ => none
        else if b0 < 0xF8 then
          match rest1 with
          | '%' :: g1 :: g2 :: '%' :: g3 :: g4 :: '%' :: g5 :: g6 :: rest2 => do
            let b1 ← hexByte g1 g2
            let b2 ← hexByte g3 g4
            let b3 ← hexByte g5 g6
            if (0x80 ≤ b1 && b1 < 0xC0) && (0x80 ≤ b2 && b2 < 0xC0) &&
                (0x80 ≤ b3 && b3 < 0xC0) then
              let n := (b0 - 0xF0) * 262144 + (b1 - 0x80) * 4096 +
                (b2 - 0x80) * 64 + (b3 - 0x80)
              if 0x10000 ≤ n && n < 0x110000 then
                (decodeAux f rest2).map (Char.ofNat n :: ·)
              else none
            else none
          | _ => none
        else none
      | _ => none
    else (decodeAux f rest).map (c :: ·)

/-- ECMAScript `decodeURIComponent`; `none` models a thrown `URIError`. -/
def decodeURIComponent (s : String) : Option String :=
  (decodeAux (s.length + 1) s.data).map String.mk

/-! ### `decodeURIComponent` inverts `encodeURIComponent` -/

theorem hexDigitVal_hexDigitChar : ∀ x < 16, hexDigitVal (hexDigitChar x) = some x := by
  decide

theorem hexByte_percent (b : Nat) (hb : b < 256) :
    hexByte (hexDigitChar (b / 16)) (hexDigitChar (b % 16)) = some b := by
  have h1 : b / 16 < 16 := by omega
  have h2 : b % 16 < 16 := by omega
  simp only [hexByte, hexDigitVal_hexDigitChar _ h1, hexDigitVal_hexDigitChar _ h2,
    Option.bind_eq_bind, Option.some_bind, Option.pure_def, Option.some.injEq]
  omega

/-- The code point of a `Char` is a Unicode scalar value: below the surrogate
range or strictly between it and `0x110000`. -/
theorem valid_toNat (c : Char) : c.toNat < 0xD800 ∨ (0xDFFF < c.toNat ∧ c.toNat < 0x110000) :=
  c.valid

theorem decodeAux_encodeURIChar (c : Char) (rest : List Char) (f : Nat) :
    decodeAux (f + 1) (encodeURIChar c ++ rest) = (decodeAux f rest).map (c :: ·) := by
  by_cases hu : unreservedURI c = true
  · have hpc : c ≠ '%' := by
      intro h
      subst h
      simp [unreservedURI] at hu
    simp [encodeURIChar, hu, decodeAux, hpc]
  · by_cases h1 : c.toNat < 0x80
    · have he : encodeURIChar c =
          '%' :: hexDigitChar (c.toNat / 16) :: hexDigitChar (c.toNat % 16) :: [] := by
        simp [encodeURIChar, hu, utf8Bytes, percentBytes, percentByte, h1]
      rw [he]
      simp only [List.cons_append, List.nil_append]
      rw [decodeAux]
      simp only [reduceIte]
      rw [hexByte_percent _ (by omega)]
      simp only [Option.bind_eq_bind, Option.some_bind, if_pos h1, Char.ofNat_toNat]
    · by_cases h2 : c.toNat < 0x800
      · have he : encodeURIChar c =
            '%' :: hexDigitChar ((0xC0 + c.toNat / 64) / 16) :: hexDigitChar ((0xC0 + c.toNat / 64) % 16) ::
            '%' :: hexDigitChar ((0x80 + c.toNat % 64) / 16) :: hexDigitChar ((0x80 + c.toNat % 64) % 16) :: [] := by
          simp [encodeURIChar, hu, utf8Bytes, percentBytes, percentByte, h1, h2]
        rw [he]
        simp only [List.cons_append, List.nil_append]
        rw [decodeAux]
        simp only [reduceIte]
        rw [hexByte_percent _ (by omega)]
        simp only [Option.bind_eq_bind, Option.some_bind]
        rw [if_neg (by omega), if_neg (by omega), if_pos (by omega)]
        rw [hexByte_percent _ (by omega)]
        simp only [Option.bind_eq_bind, Option.some_bind]
        rw [if_pos (by simp only [Bool.and_eq_true, decide_eq_true_eq]; omega)]
        rw [if_pos (by omega)]
        have harg : (0xC0 + c.toNat / 64 - 0xC0) * 64 + (0x80 + c.toNat % 64 - 0x80) = c.toNat := by
          omega
        rw [harg, Char.ofNat_toNat]
      · by_cases h3 : c.toNat < 0x10000
        · have he : encodeURIChar c =
              '%' :: hexDigitChar ((0xE0 + c.toNat / 4096) / 16) :: hexDigitChar ((0xE0 + c.toNat / 4096) % 16) ::
              '%' :: hexDigitChar ((0x80 + c.toNat / 64 % 64) / 16) :: hexDigitChar ((0x80 + c.toNat / 64 % 64) % 16) ::
              '%' :: hexDigitChar ((0x80 + c.toNat % 64) / 16) :: hexDigitChar ((0x80 + c.toNat % 64) % 16) :: [] := by
            simp [encodeURIChar, hu, utf8Bytes, percentBytes, percentByte, h1, h2, h3]
          rw [he]
          simp only [List.cons_append, List.nil_append]
          rw [decodeAux]
          simp only [reduceIte]
          rw [hexByte_percent _ (by omega)]
          simp only [Option.bind_eq_bind, Option.some_bind]
          rw [if_neg (by omega), if_neg (by omega), if_neg (by omega), if_pos (by omega)]
          rw [hexByte_percent _ (by omega), hexByte_percent _ (by omega)]
          simp only [Option.bind_eq_bind, Option.some_bind]
          rw [if_pos (by simp only [Bool.and_eq_true, decide_eq_true_eq]; omega)]
          rw [if_pos (by
            simp only [Bool.and_eq_true, Bool.or_eq_true, decide_eq_true_eq]
            rcases valid_toNat c with h | h <;> omega)]
          have harg : (0xE0 + c.toNat / 4096 - 0xE0) * 4096 + (0x80 + c.toNat / 64 % 64 - 0x80) * 64 +
              (0x80 + c.toNat % 64 - 0x80) = c.toNat := by
            omega
          rw [harg, Char.ofNat_toNat]
        · have he : encodeURIChar c =
              '%' :: hexDigitChar ((0xF0 + c.toNat / 262144) / 16) :: hexDigitChar ((0xF0 + c.toNat / 262144) % 16) ::
              '%' :: hexDigitChar ((0x80 + c.toNat / 4096 % 64) / 16) :: hexDigitChar ((0x80 + c.toNat / 4096 % 64) % 16) ::
              '%' :: hexDigitChar ((0x80 + c.toNat / 64 % 64) / 16) :: hexDigitChar ((0x80 + c.toNat / 64 % 64) % 16) ::
              '%' :: hexDigitChar ((0x80 + c.toNat % 64) / 16) :: hexDigitChar ((0x80 + c.toNat % 64) % 16) :: [] := by
            simp [encodeURIChar, hu, utf8Bytes, percentBytes, percentByte, h1, h2, h3]
          have hc4 : c.toNat < 0x110000 := by
            rcases valid_toNat c with h | h <;> omega
          rw [he]
          simp only [List.cons_append, List.nil_append]
          rw [decodeAux]
          simp only [reduceIte]
          rw [hexByte_percent _ (by omega)]
          simp only [Option.bind_eq_bind, Option.some_bind]
          rw [if_neg (by omega), if_neg (by omega), if_neg (by omega), if_neg (by omega),
            if_pos (by omega)]
          rw [hexByte_percent _ (by omega), hexByte_percent _ (by omega),
            hexByte_percent _ (by omega)]
          simp only [Option.bind_eq_bind, Option.some_bind]
          rw [if_pos (by simp only [Bool.and_eq_true, decide_eq_true_eq]; omega)]
          rw [if_pos (by simp only [Bool.and_eq_true, decide_eq_true_eq]; omega)]
          have harg : (0xF0 + c.toNat / 262144 - 0xF0) * 262144 + (0x80 + c.toNat / 4096 % 64 - 0x80) * 4096 +
              (0x80 + c.toNat / 64 % 64 - 0x80) * 64 + (0x80 + c.toNat % 64 - 0x80) = c.toNat := by
            omega
          rw [harg, Char.ofNat_toNat]

theorem decodeAux_encodeURIComponentChars (l : List Char) :
    ∀ f, l.length < f → decodeAux f (encodeURIComponentChars l) = some l := by
  induction l with
  | nil =>
    intro f hf
    obtain ⟨g, rfl⟩ : ∃ g, f = g + 1 := ⟨f - 1, by omega⟩
    simp [encodeURIComponentChars, decodeAux]
  | cons c t ih =>
    intro f hf
    obtain ⟨g, rfl⟩ : ∃ g, f = g + 1 := ⟨f - 1, by omega⟩
    simp only [encodeURIComponentChars]
    rw [decodeAux_encodeURIChar, ih g (by simp at hf; omega)]
    rfl

theorem length_percentBytes (bs : List Nat) :
    (percentBytes bs).length = 3 * bs.length := by
  induction bs with
  | nil => simp [percentBytes]
  | cons b t ih => simp [percentBytes, percentByte, ih]; omega

theorem length_le_encodeURIComponentChars (l : List Char) :
    l.length ≤ (encodeURIComponentChars l).length := by
  induction l with
  | nil => simp [encodeURIComponentChars]
  | cons c t ih =>
    have h1 : 1 ≤ (encodeURIChar c).length := by
      by_cases hu : unreservedURI c = true
      · simp [encodeURIChar, hu]
      · have hb : 1 ≤ (utf8Bytes c).length := by
          unfold utf8Bytes
          dsimp only
          split
          · simp
          · split
            · simp
            · split <;> simp
        unfold encodeURIChar
        rw [if_neg hu, length_percentBytes]
        omega
    simp only [encodeURIComponentChars, List.length_append, List.length_cons]
    omega

/-- Percent-decoding inverts percent-encoding: the ECMAScript round trip
`decodeURIComponent (encodeURIComponent s) = s` holds for every string. -/
theorem decodeURIComponent_encodeURIComponent (s : String) :
    decodeURIComponent (encodeURIComponent s) = some s := by
  show (decodeAux ((encodeURIComponentChars s.data).length + 1)
    (encodeURIComponentChars s.data)).map String.mk = some s
  rw [decodeAux_encodeURIComponentChars s.data _
    (by have := length_le_encodeURIComponentChars s.data; omega)]
  rfl

/-! ## DOM and node model

`DomNode`/`DomForest` model the parsed (deno-dom) DOM handed to `domToNode`:
a node is either a text node carrying its `nodeValue`, or an element carrying
its `tagName` (uppercase for HTML elements, as the DOM API reports it), its
attribute list (`getNamedItem` returns the first binding) and its child
nodes in document order.  `domToNode` reads `element.parentElement?.tagName`,
so the conversion functions below take the parent's `tagName` (or `none` at
the root) as an extra argument and pass their own `tagName` when recursing
into children, which is exactly what the DOM pointer provides.

`TNode` is the produced Telegraph node: a bare string for text nodes, or a
`tag`/optional-`attrs`/optional-`children` record (`NodeElement` in
`types.ts`). -/

mutual
inductive DomNode where
  | text (value : String)
  | elem (tagName : String) (attrs : List (String × String)) (children : DomForest)
inductive DomForest where
  | nil
  | cons (head : DomNode) (tail : DomForest)
end

/-- The `attrs` of a produced node: at most an `href` and a `src` entry. -/
structure NAttrs where
  href : Option String := none
  src : Option String := none
deriving Repr, DecidableEq

inductive TNode where
  | str (s : String)
  | elem (tag : String) (attrs : Option NAttrs) (children : Option (List TNode))
deriving Repr

/-- Model of `element.attributes.getNamedItem(name)?.value` (also models the
`el.attributes.name` property access used by `src/parse.ts`). -/
def getNamedItem (attrs : List (String × String)) (name : String) : Option String :=
  (attrs.find? fun p => p.1 == name).map (·.2)

/-- Tag of a produced node, if it is an element. -/
def tagOf : TNode → Option String
  | .str _ => none
  | .elem t _ _ => some t

/-- Attributes of a produced node, if it is an element. -/
def attrsOf : TNode → Option NAttrs
  | .str _ => none
  | .elem _ a _ => a

/-- The `src` attribute of a produced node, if present. -/
def srcOf (n : TNode) : Option String :=
  (attrsOf n).bind (·.src)

/-- Children of a produced node, if the field is present. -/
def childrenOf : TNode → Option (List TNode)
  | .str _ => none
  | .elem _ _ c => c

/-- Model of `String.prototype.toLowerCase`, restricted to the ASCII case mapping —
everything the source applies it to (DOM tag names, parse-mode strings) is
ASCII. -/
def jsToLowerCase (s : String) : String :=
  ⟨s.data.map Char.toLower⟩

/-- JavaScript `String.replace(pattern, replacement)` with a string pattern replaces only
the first occurrence in JavaScript. -/
def jsReplaceFirst (s pat rep : String) : String :=
  ⟨go s.data⟩
where
  go : List Char → List Char
    | [] => []
    | c :: t =>
      if (String.mk (c :: t)).startsWith pat then
        rep.data ++ (String.mk (c :: t)).data.drop pat.length
      else c :: go t

/-! ## The embed classifier (`transformToIframeURL`)

`content.ts` holds the four regexes in the record `IFRAME_SRC_REGEX` with keys
inserted in the order `twitter`, `telegram`, `vimeo`, `youtube`;
`for (const site in IFRAME_SRC_REGEX)` visits string keys in exactly that
insertion order. -/

def IFRAME_SRC_REGEX : List (String × JSRegex) :=
  [("twitter", twitterRegex), ("telegram", telegramRegex),
   ("vimeo", vimeoRegex), ("youtube", youtubeRegex)]

namespace ContentTs

/-- Function `transformToIframeURL` as in `content.ts`: the loop returns
`/embed/<site>?url=<encoded>` for the first matching site; after the loop the
function falls through without a `return`, i.e. yields `undefined` (`none`). -/
def transformToIframeURL (url : String) : Option String :=
  (IFRAME_SRC_REGEX.find? fun p => jsTest p.2 url).map
    fun p => "/embed/" ++ p.1 ++ "?url=" ++ encodeURIComponent url

end ContentTs

namespace Content

/-- Function `transformToIframeURL` of the current `content.ts` variant: identical loop,
but ending in `return url`, so a URL matching no pattern passes through. -/
def transformToIframeURL (url : String) : String :=
  ((IFRAME_SRC_REGEX.find? fun p => jsTest p.2 url).map
    fun p => "/embed/" ++ p.1 ++ "?url=" ++ encodeURIComponent url).getD url

/-- The `if (childNode && childNode !== "\n")` filter of the children loop:
an object is always truthy, a string is truthy iff non-empty. -/
def keepChild : TNode → Bool
  | .str s => s ≠ "" && s ≠ "\n"
  | .elem _ _ _ => true

/-- The text-node branch: inside a `<p>` a non-empty `nodeValue` gets its
first newline replaced by a space. -/
def textNodeValue (parent : Option String) (v : String) : String :=
  if parent = some "P" ∧ v ≠ "" then jsReplaceFirst v "\n" " " else v

mutual
/-- Function `domToNode` of the current `content.ts`: text nodes return their
(possibly newline-adjusted) `nodeValue`; elements lowercase the tag, rewrite
`code` to `pre` under a `PRE` parent, extract `href` else `src` (rewriting
iframe sources through the classifier), and convert children in order,
keeping the truthy ones. -/
def domToNode (parent : Option String) : DomNode → TNode
  | .text v => .str (textNodeValue parent v)
  | .elem tagName attrs children =>
    let tag := jsToLowerCase tagName
    let finalTag := if tag = "code" ∧ parent = some "PRE" then "pre" else tag
    let nattrs : Option NAttrs :=
      match getNamedItem attrs "href" with
      | some h => some { href := some h }
      | none =>
        match getNamedItem attrs "src" with
        | some sv =>
          some { src := some (if tag = "iframe" then transformToIframeURL sv else sv) }
        | none => none
    let ch : Option (List TNode) :=
      match children with
      | .nil => none
      | .cons _ _ => some (domToNodeChildren tagName children)
    .elem finalTag nattrs ch
termination_by structural d => d

/-- The `for (const childElement of element.childNodes)` loop with its
truthiness filter; the parent seen by each child is this element. -/
def domToNodeChildren (parentTag : String) : DomForest → List TNode
  | .nil => []
  | .cons c rest =>
    let n := domToNode (some parentTag) c
    (if keepChild n then [n] else []) ++ domToNodeChildren parentTag rest
termination_by structural f => f
end

end Content

/-! ## The conversion entry point of `content.ts`

`parse` orchestrates mode validation, trimming, Markdown rendering,
sanitization, DOM parsing and `domToNode`.  The Markdown renderer
(`marked.parse`), the sanitizer (`sanitizeHtml` configured with
`HTML_SANITIZER_OPTIONS`) and the DOM parser (`parseHtmlToDOM`) are external
libraries; `parse` takes them as function parameters. -/

/-- Thrown errors of `parse`, by message: `"Invalid parse mode: ..."`,
`"Failed to parse HTML to DOM"`, `"Empty node content"`, `"Empty content"`. -/
inductive ParseError where
  | invalidParseMode (mode : String)
  | failedDomParse
  | emptyNodeContent
  | emptyContent
deriving Repr, DecidableEq

/-- A parsed document; `parse` only uses its `body` element. -/
structure DomDocument where
  body : DomNode

def PARSE_MODES : List String := ["html", "markdown"]

/-- JavaScript whitespace for `String.prototype.trim`. -/
def isJsWhitespace (c : Char) : Bool :=
  c = ' ' || c = '\t' || c = '\n' || c = '\r' ||
    c.toNat = 0x0B || c.toNat = 0x0C || c.toNat = 0xA0 || c.toNat = 0xFEFF

/-- Model of `String.prototype.trim`: strip leading and trailing whitespace. -/
def jsTrim (s : String) : String :=
  ⟨((s.data.dropWhile isJsWhitespace).reverse.dropWhile isJsWhitespace).reverse⟩

namespace Content

/-- Function `parse` of the current `content.ts`: validate the mode, trim the content,
render Markdown if requested, sanitize, parse to a DOM, convert the body, and
unwrap — a string result is returned as-is, a missing `children` field is the
`"Empty content"` error, otherwise the children list is returned.  (The
`node === null` check of the source cannot fire here: in this DOM model a
text node's `nodeValue` is never `null`, and `dom.body` is an element, so
`domToNode` always returns a value.)  The `body` element's own parent is the
`html` element, whose tag name is `"HTML"`. -/
def parse (sanitizeHtml markedParse : String → String)
    (parseHtmlToDOM : String → Option DomDocument)
    (content : String) (parseMode : String) :
    Except ParseError (String ⊕ List TNode) :=
  let mode := jsToLowerCase parseMode
  if !PARSE_MODES.contains mode then .error (.invalidParseMode parseMode)
  else
    let content := jsTrim content
    let html := if mode = "html" then content else markedParse content
    let sanitized := sanitizeHtml html
    match parseHtmlToDOM sanitized with
    | none => .error .failedDomParse
    | some dom =>
      match domToNode (some "HTML") dom.body with
      | .str s => .ok (.inl s)
      | .elem _ _ none => .error .emptyContent
      | .elem _ _ (some ch) => .ok (.inr ch)

end Content

/-! ## The legacy converter of `src/parse.ts`

`domToNode` there renames tags in a `switch`, keeps `href` and `src`
independently (spreading `{ ...nodeElement.attrs, src }`), and rewrites iframe
sources through an inline `if/else if` chain that tests Twitter, then
YouTube, then Vimeo, then Telegram. -/

namespace Parse

/-- The iframe-`src` rewriting chain of `src/parse.ts` (`domToNode`,
the `nodeElement.tag === "iframe"` block), extracted as a function.  Twitter
and Telegram re-embed the raw `src` without percent-encoding; YouTube
synthesizes `https://www.youtube.com/watch?v=<match[1]>`; Vimeo synthesizes
`https://vimeo.com/<match.pop()>` — `match.pop()` is the last entry of the
six-element match array, i.e. capture group 5. -/
def rewriteIframeSrc (src : String) : String :=
  if jsTest twitterRegex src then
    match jsExec twitterRegex src with
    | some _ => "/embed/twitter?url=" ++ src
    | none => src
  else if jsTest youtubeRegex src then
    match jsExec youtubeRegex src with
    | some caps =>
      "/embed/youtube?url=" ++
        encodeURIComponent ("https://www.youtube.com/watch?v=" ++ jsCapStr (capGet caps 1))
    | none => src
  else if jsTest vimeoRegex src then
    match jsExec vimeoRegex src with
    | some caps =>
      "/embed/vimeo?url=" ++
        encodeURIComponent ("https://vimeo.com/" ++ jsCapStr (capGet caps 5))
    | none => src
  else if jsTest telegramRegex src then
    match jsExec telegramRegex src with
    | some _ => "/embed/telegram?url=" ++ src
    | none => src
  else src

/-- The `switch (tag)` of `src/parse.ts`: heading remaps, `del → s`, and
`code → pre` under a `PRE` parent. -/
def switchTag (tag : String) (parent : Option String) : String :=
  if tag = "h1" then "h3"
  else if tag = "h2" then "h4"
  else if tag = "h5" then "h3"
  else if tag = "h6" then "h4"
  else if tag = "del" then "s"
  else if tag = "code" then (if parent = some "PRE" then "pre" else tag)
  else tag

/-- The `if (node)` filter of the children loop in `src/parse.ts`. -/
def keepChild : TNode → Bool
  | .str s => s ≠ ""
  | .elem _ _ _ => true

mutual
/-- Function `domToNode` of `src/parse.ts`.  Note that when the element carries both
attributes, `attrs` ends up with both `href` and `src`
(`nodeElement.attrs = { ...nodeElement.attrs, src }`), and the iframe check
uses the already-renamed `nodeElement.tag`. -/
def domToNode (parent : Option String) : DomNode → TNode
  | .text v => .str v
  | .elem tagName attrs children =>
    let tag := jsToLowerCase tagName
    let finalTag := switchTag tag parent
    let a1 : Option NAttrs :=
      match getNamedItem attrs "href" with
      | some h => some { href := some h }
      | none => none
    let a2 : Option NAttrs :=
      match getNamedItem attrs "src" with
      | some sv =>
        some { href := match a1 with | some a => a.href | none => none
               src := some (if finalTag = "iframe" then rewriteIframeSrc sv else sv) }
      | none => a1
    let ch : Option (List TNode) :=
      match children with
      | .nil => none
      | .cons _ _ => some (domToNodeChildren tagName children)
    .elem finalTag a2 ch
termination_by structural d => d

/-- The indexed `for` loop over `el.childNodes` with its `if (node)` filter. -/
def domToNodeChildren (parentTag : String) : DomForest → List TNode
  | .nil => []
  | .cons c rest =>
    let n := domToNode (some parentTag) c
    (if keepChild n then [n] else []) ++ domToNodeChildren parentTag rest
termination_by structural f => f
end

end Parse

/-- The `transformTags` table of `HTML_SANITIZER_OPTIONS` in `content.ts`:
the tag renames the sanitizer applies before `domToNode` runs. -/
def HTML_SANITIZER_TRANSFORM_TAGS : List (String × String) :=
  [("h1", "h3"), ("h2", "h4"), ("h5", "h3"), ("h6", "h4"), ("del", "s")]

/-- The heading tags that `src/parse.ts` renames away (and the sanitizer of
`content.ts` already renames upstream). -/
def bannedHeadingTags : List String := ["h1", "h2", "h5", "h6"]

/-- No element anywhere in a produced tree carries one of the remapped
heading tags. -/
def hTagFree : TNode → Bool
  | .str _ => true
  | .elem t _ none => decide (t ∉ bannedHeadingTags)
  | .elem t _ (some ch) =>
    decide (t ∉ bannedHeadingTags) && ch.attach.all fun c => hTagFree c.1
termination_by n => sizeOf n
decreasing_by
  simp_wf
  have := List.sizeOf_lt_of_mem c.2
  omega

/-- A successful `test` means `exec` returns a match. -/
theorem jsTest_exec_some (re : JSRegex) (s : String) (h : jsTest re s = true) :
    ∃ caps, jsExec re s = some caps := by
  unfold jsTest at h
  cases hc : jsExec re s with
  | none => rw [hc] at h; simp at h
  | some caps => exact ⟨caps, rfl⟩

/-! ## Claim theorems -/

/-- C10: in `content.ts`, whenever some platform pattern matches a URL, the
loop body rewrites it to `/embed/<site>?url=` followed by the
percent-encoding of the entire original input — the same shape for every
platform, with no canonicalization — and percent-decoding that query value
recovers the input exactly. -/
theorem c10_rewrite_reembeds_input_verbatim (u : String) (p : String × JSRegex)
    (hfind : IFRAME_SRC_REGEX.find? (fun q => jsTest q.2 u) = some p) :
    ContentTs.transformToIframeURL u =
      some ("/embed/" ++ p.1 ++ "?url=" ++ encodeURIComponent u) ∧
    decodeURIComponent (encodeURIComponent u) = some u := by
  constructor
  · simp [ContentTs.transformToIframeURL, hfind]
  · exact decodeURIComponent_encodeURIComponent u

theorem c10_rewrite_reembeds_input_verbatim_witness :
    IFRAME_SRC_REGEX.find? (fun q => jsTest q.2 "https://t.me/durov/5") =
      some ("telegram", telegramRegex) ∧
    ContentTs.transformToIframeURL "https://t.me/durov/5" =
      some ("/embed/telegram?url=" ++ encodeURIComponent "https://t.me/durov/5") ∧
    decodeURIComponent (encodeURIComponent "https://t.me/durov/5") =
      some "https://t.me/durov/5" :=
  have h := c10_rewrite_reembeds_input_verbatim "https://t.me/durov/5"
    ("telegram", telegramRegex) (by decide)
  ⟨by decide, h.1, h.2⟩

/-- C1: a URL matching none of the four patterns passes through the
classifier of the current `content.ts` (`return url`) unchanged, and hence an
iframe element carrying it as `src` keeps it verbatim in `attrs.src`. -/
theorem c1_no_match_passthrough (u : String)
    (htw : jsTest twitterRegex u = false) (htg : jsTest telegramRegex u = false)
    (hvm : jsTest vimeoRegex u = false) (hyt : jsTest youtubeRegex u = false) :
    Content.transformToIframeURL u = u ∧
    ∀ (p : Option String) (attrs : List (String × String)) (ch : DomForest),
      getNamedItem attrs "href" = none → getNamedItem attrs "src" = some u →
      attrsOf (Content.domToNode p (.elem "IFRAME" attrs ch)) =
        some { href := none, src := some u } := by
  have hfind : IFRAME_SRC_REGEX.find? (fun q => jsTest q.2 u) = none := by
    simp [IFRAME_SRC_REGEX, List.find?, htw, htg, hvm, hyt]
  have htr : Content.transformToIframeURL u = u := by
    simp [Content.transformToIframeURL, hfind]
  refine ⟨htr, ?_⟩
  intro p attrs ch hh hs
  have hlow : jsToLowerCase "IFRAME" = "iframe" := rfl
  cases ch <;> simp [Content.domToNode, attrsOf, hh, hs, hlow, htr]

theorem c1_no_match_passthrough_witness :
    jsTest twitterRegex "https://example.com/page" = false ∧
    jsTest telegramRegex "https://example.com/page" = false ∧
    jsTest vimeoRegex "https://example.com/page" = false ∧
    jsTest youtubeRegex "https://example.com/page" = false ∧
    getNamedItem [("src", "https://example.com/page")] "href" = none ∧
    getNamedItem [("src", "https://example.com/page")] "src" =
      some "https://example.com/page" ∧
    Content.transformToIframeURL "https://example.com/page" =
      "https://example.com/page" ∧
    attrsOf (Content.domToNode none
        (.elem "IFRAME" [("src", "https://example.com/page")] .nil)) =
      some { href := none, src := some "https://example.com/page" } :=
  have h := c1_no_match_passthrough "https://example.com/page"
    (by decide) (by decide) (by decide) (by decide)
  ⟨by decide, by decide, by decide, by decide, by decide, by decide,
    h.1, h.2 none _ .nil (by decide) (by decide)⟩

/-- C3 counterexample: `"https://t.me/a/1?v=x"` matches both the Telegram and
the YouTube patterns (and not Twitter), so under the claimed priority order
(Twitter, YouTube, Vimeo, Telegram) YouTube would win; both `content.ts`
classifiers instead produce the Telegram rewrite, because the `for...in` loop
visits the keys in insertion order `twitter, telegram, vimeo, youtube`. -/
theorem c3_order_counterexample :
    jsTest twitterRegex "https://t.me/a/1?v=x" = false ∧
    jsTest youtubeRegex "https://t.me/a/1?v=x" = true ∧
    jsTest telegramRegex "https://t.me/a/1?v=x" = true ∧
    ContentTs.transformToIframeURL "https://t.me/a/1?v=x" =
      some ("/embed/telegram?url=" ++ encodeURIComponent "https://t.me/a/1?v=x") ∧
    Content.transformToIframeURL "https://t.me/a/1?v=x" =
      "/embed/telegram?url=" ++ encodeURIComponent "https://t.me/a/1?v=x" ∧
    ("/embed/telegram?url=" ++ encodeURIComponent "https://t.me/a/1?v=x" : String) ≠
      "/embed/youtube?url=" ++ encodeURIComponent "https://t.me/a/1?v=x" :=
  ⟨by decide, by decide, by decide, by decide, by decide, by decide⟩

/-- C3 amended: first match wins in both classifiers, but the priority order
differs between the two implementations: `content.ts` tests Twitter, then
Telegram, then Vimeo, then YouTube (object-key insertion order), while
`src/parse.ts` tests Twitter, then YouTube, then Vimeo, then Telegram. -/
theorem c3_first_match_wins_per_variant_order (u : String) :
    ((jsTest twitterRegex u = true →
      Content.transformToIframeURL u = "/embed/twitter?url=" ++ encodeURIComponent u) ∧
    (jsTest twitterRegex u = false → jsTest telegramRegex u = true →
      Content.transformToIframeURL u = "/embed/telegram?url=" ++ encodeURIComponent u) ∧
    (jsTest twitterRegex u = false → jsTest telegramRegex u = false →
      jsTest vimeoRegex u = true →
      Content.transformToIframeURL u = "/embed/vimeo?url=" ++ encodeURIComponent u) ∧
    (jsTest twitterRegex u = false → jsTest telegramRegex u = false →
      jsTest vimeoRegex u = false → jsTest youtubeRegex u = true →
      Content.transformToIframeURL u = "/embed/youtube?url=" ++ encodeURIComponent u)) ∧
    ((jsTest twitterRegex u = true →
      Parse.rewriteIframeSrc u = "/embed/twitter?url=" ++ u) ∧
    (jsTest twitterRegex u = false → jsTest youtubeRegex u = true →
      ∃ caps, jsExec youtubeRegex u = some caps ∧
        Parse.rewriteIframeSrc u = "/embed/youtube?url=" ++
          encodeURIComponent ("https://www.youtube.com/watch?v=" ++ jsCapStr (capGet caps 1))) ∧
    (jsTest twitterRegex u = false → jsTest youtubeRegex u = false →
      jsTest vimeoRegex u = true →
      ∃ caps, jsExec vimeoRegex u = some caps ∧
        Parse.rewriteIframeSrc u = "/embed/vimeo?url=" ++
          encodeURIComponent ("https://vimeo.com/" ++ jsCapStr (capGet caps 5))) ∧
    (jsTest twitterRegex u = false → jsTest youtubeRegex u = false →
      jsTest vimeoRegex u = false → jsTest telegramRegex u = true →
      Parse.rewriteIframeSrc u = "/embed/telegram?url=" ++ u)) := by
  refine ⟨⟨?_, ?_, ?_, ?_⟩, ⟨?_, ?_, ?_, ?_⟩⟩
  · intro h1
    simp [Content.transformToIframeURL, IFRAME_SRC_REGEX, List.find?, h1]
  · intro h1 h2
    simp [Content.transformToIframeURL, IFRAME_SRC_REGEX, List.find?, h1, h2]
  · intro h1 h2 h3
    simp [Content.transformToIframeURL, IFRAME_SRC_REGEX, List.find?, h1, h2, h3]
  · intro h1 h2 h3 h4
    simp [Content.transformToIframeURL, IFRAME_SRC_REGEX, List.find?, h1, h2, h3, h4]
  · intro h1
    have := jsTest_exec_some twitterRegex u h1
    obtain ⟨caps, hc⟩ := this
    simp [Parse.rewriteIframeSrc, h1, hc]
  · intro h1 h2
    obtain ⟨caps, hc⟩ := jsTest_exec_some youtubeRegex u h2
    exact ⟨caps, hc, by simp [Parse.rewriteIframeSrc, h1, h2, hc]⟩
  · intro h1 h2 h3
    obtain ⟨caps, hc⟩ := jsTest_exec_some vimeoRegex u h3
    exact ⟨caps, hc, by simp [Parse.rewriteIframeSrc, h1, h2, h3, hc]⟩
  · intro h1 h2 h3 h4
    obtain ⟨caps, hc⟩ := jsTest_exec_some telegramRegex u h4
    simp [Parse.rewriteIframeSrc, h1, h2, h3, h4, hc]

theorem c3_first_match_wins_per_variant_order_witness :
    Content.transformToIframeURL "https://twitter.com/a/status/1" =
      "/embed/twitter?url=" ++ encodeURIComponent "https://twitter.com/a/status/1" ∧
    Parse.rewriteIframeSrc "https://twitter.com/a/status/1" =
      "/embed/twitter?url=" ++ "https://twitter.com/a/status/1" :=
  ⟨(c3_first_match_wins_per_variant_order "https://twitter.com/a/status/1").1.1 (by decide),
    (c3_first_match_wins_per_variant_order "https://twitter.com/a/status/1").2.1 (by decide)⟩

/-- C8: in the converged converter's `domToNode` (`content.ts`), a produced
element's `attrs` never contains both `href` and `src`; when the source
element carries both attributes, the first-checked `href` wins and `src` is
not carried over. -/
theorem c8_href_precedence (p : Option String) (t : String)
    (attrs : List (String × String)) (ch : DomForest) :
    (∀ a, attrsOf (Content.domToNode p (.elem t attrs ch)) = some a →
      ¬(a.href.isSome = true ∧ a.src.isSome = true)) ∧
    (∀ h, getNamedItem attrs "href" = some h →
      attrsOf (Content.domToNode p (.elem t attrs ch)) =
        some { href := some h, src := none }) := by
  constructor
  · intro a ha hcontra
    cases hh : getNamedItem attrs "href" with
    | some h =>
      simp [Content.domToNode, attrsOf, hh] at ha
      rw [← ha] at hcontra
      simp at hcontra
    | none =>
      cases hs : getNamedItem attrs "src" with
      | some sv =>
        simp [Content.domToNode, attrsOf, hh, hs] at ha
        rw [← ha] at hcontra
        simp at hcontra
      | none =>
        simp [Content.domToNode, attrsOf, hh, hs] at ha
  · intro h hh
    simp [Content.domToNode, attrsOf, hh]

theorem c8_href_precedence_witness :
    getNamedItem [("href", "H"), ("src", "S")] "href" = some "H" ∧
    attrsOf (Content.domToNode none (.elem "A" [("href", "H"), ("src", "S")] .nil)) =
      some { href := some "H", src := none } :=
  ⟨by decide, (c8_href_precedence none "A" [("href", "H"), ("src", "S")] .nil).2 "H" (by decide)⟩

/-- C9 counterexample: a `<b>` element whose only child is the text `"\n"`
has child nodes, so `domToNode` initializes `children` to `[]`; the child is
then dropped by the filter, leaving `children` present and equal to the empty
sequence rather than omitted. -/
theorem c9_empty_children_counterexample :
    Content.domToNode (some "BODY") (.elem "B" [] (.cons (.text "\n") .nil)) =
      .elem "b" none (some []) ∧
    childrenOf (Content.domToNode (some "BODY") (.elem "B" [] (.cons (.text "\n") .nil))) =
      some [] ∧
    some ([] : List TNode) ≠ none :=
  ⟨rfl, rfl, by simp⟩

/-- C9 amended: in both converters the `children` field is omitted exactly
when the source element had no child nodes at all; when it had child nodes
that were all dropped, the field is present and empty. -/
theorem c9_children_omitted_iff_no_childnodes (p : Option String) (t : String)
    (attrs : List (String × String)) (ch : DomForest) :
    (childrenOf (Content.domToNode p (.elem t attrs ch)) = none ↔ ch = .nil) ∧
    (childrenOf (Parse.domToNode p (.elem t attrs ch)) = none ↔ ch = .nil) := by
  cases ch <;> simp [Content.domToNode, Parse.domToNode, childrenOf]

/-- C5 counterexample: `<pre><code>X</code></pre>` converts to a `pre`
element containing another `pre` element containing `"X"` — a nested
two-element structure, not a single collapsed `pre` with the text child. -/
theorem c5_pre_code_counterexample :
    Content.domToNode (some "BODY")
        (.elem "PRE" [] (.cons (.elem "CODE" [] (.cons (.text "X") .nil)) .nil)) =
      .elem "pre" none (some [.elem "pre" none (some [.str "X"])]) ∧
    TNode.elem "pre" none (some [.elem "pre" none (some [.str "X"])]) ≠
      .elem "pre" none (some [.str "X"]) :=
  ⟨rfl, by simp⟩

/-- C5 amended: the `code` tag is renamed to `pre` exactly when the immediate
parent element is `pre` (in both converters), but the renamed child stays a
separate element: the `pre > code` input yields `pre > pre`, not one
collapsed element. -/
theorem c5_code_renamed_under_pre (p : Option String)
    (attrs : List (String × String)) (ch : DomForest) :
    tagOf (Content.domToNode p (.elem "CODE" attrs ch)) =
      some (if p = some "PRE" then "pre" else "code") ∧
    tagOf (Parse.domToNode p (.elem "CODE" attrs ch)) =
      some (if p = some "PRE" then "pre" else "code") := by
  have hlow : jsToLowerCase "CODE" = "code" := rfl
  by_cases hp : p = some "PRE" <;>
    simp [Content.domToNode, Parse.domToNode, Parse.switchTag, tagOf, hlow, hp]

/-- C2: in `src/parse.ts`, an iframe whose `src` matches the YouTube pattern
(and not the earlier Twitter pattern) gets `attrs.src` equal to
`/embed/youtube?url=` followed by the percent-encoding of the canonical
`https://www.youtube.com/watch?v=<id>` URL built from capture group 1 — not
the percent-encoding of the raw input. -/
theorem c2_youtube_canonicalized (p : Option String) (attrs : List (String × String))
    (ch : DomForest) (u : String) (caps : Caps) (vid : String)
    (hsrc : getNamedItem attrs "src" = some u)
    (htw : jsTest twitterRegex u = false)
    (hyt : jsExec youtubeRegex u = some caps)
    (hcap : capGet caps 1 = some vid) :
    srcOf (Parse.domToNode p (.elem "IFRAME" attrs ch)) =
      some ("/embed/youtube?url=" ++
        encodeURIComponent ("https://www.youtube.com/watch?v=" ++ vid)) := by
  have hlow : jsToLowerCase "IFRAME" = "iframe" := rfl
  have htest : jsTest youtubeRegex u = true := by simp [jsTest, hyt]
  cases hh : getNamedItem attrs "href" <;>
    simp [Parse.domToNode, srcOf, attrsOf, hsrc, hh, hlow, Parse.switchTag,
      Parse.rewriteIframeSrc, htw, htest, hyt, hcap, jsCapStr]

theorem c2_youtube_canonicalized_witness :
    getNamedItem [("src", "https://www.youtube.com/watch?v=ABC123")] "src" =
      some "https://www.youtube.com/watch?v=ABC123" ∧
    jsTest twitterRegex "https://www.youtube.com/watch?v=ABC123" = false ∧
    jsExec youtubeRegex "https://www.youtube.com/watch?v=ABC123" =
      some [(1, "ABC123")] ∧
    capGet [(1, "ABC123")] 1 = some "ABC123" ∧
    srcOf (Parse.domToNode none
        (.elem "IFRAME" [("src", "https://www.youtube.com/watch?v=ABC123")] .nil)) =
      some ("/embed/youtube?url=" ++
        encodeURIComponent "https://www.youtube.com/watch?v=ABC123") := by
  refine ⟨by decide, by decide, by decide, by decide, ?_⟩
  have h := c2_youtube_canonicalized none
    [("src", "https://www.youtube.com/watch?v=ABC123")] .nil
    "https://www.youtube.com/watch?v=ABC123" [(1, "ABC123")] "ABC123"
    (by decide) (by decide) (by decide) (by decide)
  rwa [show ("https://www.youtube.com/watch?v=" ++ "ABC123" : String) =
    "https://www.youtube.com/watch?v=ABC123" from rfl] at h

/-- C4: whenever the sanitized, rendered content parses to a document whose
body element has no child nodes, `parse` (with a valid mode) throws the
`"Empty content"` error instead of returning a value. -/
theorem c4_empty_body_fails (S M : String → String) (D : String → Option DomDocument)
    (content parseMode : String) (bt : String) (battrs : List (String × String))
    (hmode : PARSE_MODES.contains (jsToLowerCase parseMode) = true)
    (hD : D (S (if jsToLowerCase parseMode = "html" then jsTrim content
        else M (jsTrim content))) = some ⟨.elem bt battrs .nil⟩) :
    Content.parse S M D content parseMode = .error .emptyContent := by
  have hmem : jsToLowerCase parseMode ∈ PARSE_MODES := by simpa using hmode
  simp [Content.parse, hmode, hmem, hD, Content.domToNode]

/-- C4 witness, the `parse("", "HTML")` scenario: `sanitize-html` returns the
empty string on empty input and the DOM parser produces a document with an
empty body, so the external collaborators are instantiated accordingly. -/
theorem c4_empty_body_fails_witness :
    PARSE_MODES.contains (jsToLowerCase "HTML") = true ∧
    Content.parse (fun _ => "") (fun s => s)
      (fun _ => some ⟨.elem "BODY" [] .nil⟩) "" "HTML" = .error .emptyContent :=
  ⟨by decide, c4_empty_body_fails (fun _ => "") (fun s => s)
    (fun _ => some ⟨.elem "BODY" [] .nil⟩) "" "HTML" "BODY" [] (by decide) rfl⟩

/-- C6 counterexample: plain-text input in HTML mode.  The external
collaborators are instantiated with their behavior on this input:
`sanitize-html` and `marked` leave `"hello"` unchanged, and the DOM parser
produces a body containing the single text node `"hello"`.  `parse` returns
the one-element sequence `[ "hello" ]`, not the bare string `"hello"`: the
bare-string branch requires the body itself to be a text node, which never
happens. -/
theorem c6_bare_string_counterexample :
    Content.parse (fun s => s) (fun s => s)
        (fun s => some ⟨.elem "BODY" [] (.cons (.text s) .nil)⟩) "hello" "HTML" =
      .ok (.inr [.str "hello"]) ∧
    (Except.ok (Sum.inr [TNode.str "hello"]) : Except ParseError (String ⊕ List TNode)) ≠
      .ok (.inl "hello") :=
  ⟨rfl, by simp⟩

/-- C6 amended: for plain text, `parse` in HTML mode returns the one-element
sequence containing the text of the body's single text node — the content is
trimmed before sanitization, but the result is a sequence, not a bare
string. -/
theorem c6_plain_text_singleton_sequence (S M : String → String)
    (D : String → Option DomDocument) (t v bt : String)
    (battrs : List (String × String))
    (hD : D (S (jsTrim t)) = some ⟨.elem bt battrs (.cons (.text v) .nil)⟩)
    (hbt : bt ≠ "P") (hv1 : v ≠ "") (hv2 : v ≠ "\n") :
    Content.parse S M D t "HTML" = .ok (.inr [.str v]) := by
  have hmode : jsToLowerCase "HTML" = "html" := rfl
  simp only [Content.parse, hmode]
  simp [PARSE_MODES, hD, Content.domToNode, Content.domToNodeChildren,
    Content.textNodeValue, Content.keepChild, hbt, hv1, hv2]

theorem c6_plain_text_singleton_sequence_witness :
    Content.parse (fun s => s) (fun s => s)
      (fun s => some ⟨.elem "BODY" [] (.cons (.text s) .nil)⟩) "  hi  " "HTML" =
      .ok (.inr [.str "hi"]) :=
  c6_plain_text_singleton_sequence (fun s => s) (fun s => s)
    (fun s => some ⟨.elem "BODY" [] (.cons (.text s) .nil)⟩) "  hi  " "hi" "BODY" []
    rfl (by decide) (by decide) (by decide)

/-- The `switch` of `src/parse.ts` never outputs one of the remapped heading
tags. -/
theorem switchTag_not_banned (tag : String) (p : Option String) :
    Parse.switchTag tag p ∉ bannedHeadingTags := by
  unfold Parse.switchTag bannedHeadingTags
  split_ifs <;> simp_all

mutual
theorem hTagFree_parse_domToNode (p : Option String) (d : DomNode) :
    hTagFree (Parse.domToNode p d) = true := by
  cases d with
  | text v => simp [Parse.domToNode, hTagFree]
  | elem tagName attrs children =>
    cases children with
    | nil =>
      simp only [Parse.domToNode, hTagFree]
      exact decide_eq_true (switchTag_not_banned _ _)
    | cons c rest =>
      simp only [Parse.domToNode, hTagFree, Bool.and_eq_true, List.all_eq_true,
        List.mem_attach, true_implies, Subtype.forall]
      refine ⟨decide_eq_true (switchTag_not_banned _ _), ?_⟩
      intro n hn
      exact hTagFree_parse_domToNodeChildren tagName (.cons c rest) n hn
termination_by structural d

theorem hTagFree_parse_domToNodeChildren (pt : String) (fr : DomForest) :
    ∀ n ∈ Parse.domToNodeChildren pt fr, hTagFree n = true := by
  cases fr with
  | nil => simp [Parse.domToNodeChildren]
  | cons c rest =>
    intro n hn
    simp only [Parse.domToNodeChildren, List.mem_append] at hn
    rcases hn with hn | hn
    · split at hn
      · simp only [List.mem_singleton] at hn
        subst hn
        exact hTagFree_parse_domToNode (some pt) c
      · simp at hn
    · exact hTagFree_parse_domToNodeChildren pt rest n hn
termination_by structural fr
end

/-- C7: `src/parse.ts` maps `h1`/`h5` elements to `h3` and `h2`/`h6` to `h4`,
and no element anywhere in a converted tree carries one of the original four
tags; `content.ts` performs the same remap upstream through the sanitizer's
`transformTags` table. -/
theorem c7_heading_remap :
    (∀ (p : Option String) (attrs : List (String × String)) (ch : DomForest),
      tagOf (Parse.domToNode p (.elem "H1" attrs ch)) = some "h3") ∧
    (∀ (p : Option String) (attrs : List (String × String)) (ch : DomForest),
      tagOf (Parse.domToNode p (.elem "H2" attrs ch)) = some "h4") ∧
    (∀ (p : Option String) (attrs : List (String × String)) (ch : DomForest),
      tagOf (Parse.domToNode p (.elem "H5" attrs ch)) = some "h3") ∧
    (∀ (p : Option String) (attrs : List (String × String)) (ch : DomForest),
      tagOf (Parse.domToNode p (.elem "H6" attrs ch)) = some "h4") ∧
    (∀ (p : Option String) (d : DomNode), hTagFree (Parse.domToNode p d) = true) ∧
    getNamedItem HTML_SANITIZER_TRANSFORM_TAGS "h1" = some "h3" ∧
    getNamedItem HTML_SANITIZER_TRANSFORM_TAGS "h2" = some "h4" ∧
    getNamedItem HTML_SANITIZER_TRANSFORM_TAGS "h5" = some "h3" ∧
    getNamedItem HTML_SANITIZER_TRANSFORM_TAGS "h6" = some "h4" := by
  refine ⟨?_, ?_, ?_, ?_, hTagFree_parse_domToNode, by decide, by decide, by decide, by decide⟩
  all_goals
    intro p attrs ch
    simp [Parse.domToNode, Parse.switchTag, tagOf, show jsToLowerCase "H1" = "h1" from rfl,
      show jsToLowerCase "H2" = "h2" from rfl, show jsToLowerCase "H5" = "h5" from rfl,
      show jsToLowerCase "H6" = "h6" from rfl]
